import Mathlib

/-!
Verification of the core of `boopin/xml-sitemap-extractor` (src/app.py).

The file shallow-embeds the two subsystems the specification describes:

* `SitemapExtractor.extract_urls_from_sitemap` (recursive sitemap resolution,
  src/app.py lines 21-71), modelled over an explicit tree of fetch/parse
  outcomes: every network fetch and every XML parse is replaced by the value
  it would have produced.
* `URLStatusChecker` (sampling, probing, batching, src/app.py lines 73-207),
  modelled with explicit oracles for the network outcomes, for the random
  generator used by `random.sample`, and for the completion order of the
  worker pool.

Machine-level details that no claim depends on (exact byte contents, wall
clock) are carried as oracle inputs; rationals stand in for Python floats
(the sampling rates and time values involved are small decimal literals).
-/

/-! ## Sitemap resolution model

A fetched-and-parsed sitemap node.  `fetchFail` is `fetch_sitemap_content`
returning `None` (or empty content, which `if nested_content:` treats the
same way); `parseFail` is `ET.fromstring` raising (`parse_sitemap` then
returns `[]`); `doc ls` is a successfully parsed XML document, described by
its list of `<loc>` elements in document order.

In the document list, `consUrl u rest` is a `loc` element (stripped text
`u`) that is not the child of a `sitemap` element, i.e. an ordinary URL
record; `consSitemap u sub rest` is a `sitemap/loc` element whose stripped
text is `u`, together with the outcome `sub` of fetching and parsing the
URL `u`.  `root.findall(".//ns:loc")` returns the texts of all of these
elements (both kinds), while `root.findall(".//ns:sitemap/ns:loc")` returns
only the `consSitemap` ones; locs with missing text are dropped by the code
and therefore are not modelled.
-/

mutual

inductive SitemapTree : Type where
  | fetchFail : SitemapTree
  | parseFail : SitemapTree
  | doc : LocList → SitemapTree

inductive LocList : Type where
  | nil : LocList
  | consUrl : String → LocList → LocList
  | consSitemap : String → SitemapTree → LocList → LocList

end

/-- Texts of all `loc` elements of a document, in document order: the value
of `[url.text.strip() for url in root.findall(".//ns:loc", ns) if url.text]`
(src/app.py lines 46-47).  Note that the texts of `sitemap/loc` children are
included: the XPath `.//ns:loc` matches them too. -/
def locTexts : LocList → List String
  | .nil => []
  | .consUrl u rest => u :: locTexts rest
  | .consSitemap u _ rest => u :: locTexts rest

mutual

/-- The inner function `parse_sitemap(content, base_url, current_depth)` of
src/app.py lines 40-59, applied to an already-parsed document `ls`: it
returns all loc texts of the document, followed (when `recursive` is set and
`current_depth < max_depth`) by the URLs extracted from each `sitemap/loc`
child in order. -/
def parse_sitemap (recursive : Bool) (max_depth : Nat) (ls : LocList)
    (current_depth : Nat) : List String :=
  locTexts ls ++
    (if recursive = true ∧ current_depth < max_depth then
      childUrls recursive max_depth ls (current_depth + 1)
    else [])
termination_by (sizeOf ls, 1)

/-- The loop `for sitemap_loc in sitemap_indexes: ...` of src/app.py lines
52-57 at child depth `d`: a child whose fetch fails is skipped by
`if nested_content:`; a child whose parse fails contributes `[]` (the
`except` branches of `parse_sitemap`); a parsed child contributes its own
recursive extraction. -/
def childUrls (recursive : Bool) (max_depth : Nat) : LocList → Nat → List String
  | .nil, _ => []
  | .consUrl _ rest, d => childUrls recursive max_depth rest d
  | .consSitemap _ .fetchFail rest, d => childUrls recursive max_depth rest d
  | .consSitemap _ .parseFail rest, d => childUrls recursive max_depth rest d
  | .consSitemap _ (.doc ls) rest, d =>
      parse_sitemap recursive max_depth ls d ++ childUrls recursive max_depth rest d
termination_by ls _ => (sizeOf ls, 0)

end

/-- `SitemapExtractor.extract_urls_from_sitemap` (src/app.py lines 23-71):
fetch the root; on failure return `[]`; on a root parse failure the inner
`parse_sitemap` returns `[]`, so `list(set(...))` is `[]` as well; otherwise
return the parsed URLs with duplicates removed (`list(set(...))`; the order
Python produces is unspecified, `List.dedup` is one representative — all
claims below are stated up to the underlying set). -/
def extract_urls_from_sitemap (recursive : Bool) (max_depth : Nat)
    (root : SitemapTree) : List String :=
  match root with
  | .fetchFail => []
  | .parseFail => []
  | .doc ls => (parse_sitemap recursive max_depth ls 0).dedup

mutual

/-- Depth of an outcome tree: a document with no sitemap children has depth
0; each sitemap child (followed or not) sits one level deeper. -/
def SitemapTree.depth : SitemapTree → Nat
  | .fetchFail => 0
  | .parseFail => 0
  | .doc ls => LocList.depth ls

/-- Depth of a document given by its loc list. -/
def LocList.depth : LocList → Nat
  | .nil => 0
  | .consUrl _ rest => LocList.depth rest
  | .consSitemap _ sub rest => max (SitemapTree.depth sub + 1) (LocList.depth rest)

end

mutual

/-- The set of all loc texts of all successfully parsed documents of the
tree (URL records and sitemap children alike); failed nodes contribute
nothing. -/
def specAllLocs : SitemapTree → Finset String
  | .fetchFail => ∅
  | .parseFail => ∅
  | .doc ls => specAllLocsList ls

/-- The set of all loc texts reachable from a loc list. -/
def specAllLocsList : LocList → Finset String
  | .nil => ∅
  | .consUrl u rest => insert u (specAllLocsList rest)
  | .consSitemap u sub rest => insert u (specAllLocs sub ∪ specAllLocsList rest)

end

/-- Union of the subtree loc sets of the sitemap children of a document. -/
def specChildren : LocList → Finset String
  | .nil => ∅
  | .consUrl _ rest => specChildren rest
  | .consSitemap _ sub rest => specAllLocs sub ∪ specChildren rest

mutual

/-- Modelled from the spec: the URL locations of the URLSet records of the
tree, i.e. the texts of loc elements that are not children of a `sitemap`
element.  This follows the specification's wording ("the URL locations of
all URLSet documents in the tree"); it is the comparison point for claim
C1, not a function of the source. -/
def specURLSetLocs : SitemapTree → Finset String
  | .fetchFail => ∅
  | .parseFail => ∅
  | .doc ls => specURLSetLocsList ls

/-- Modelled from the spec: URLSet locations reachable from a loc list. -/
def specURLSetLocsList : LocList → Finset String
  | .nil => ∅
  | .consUrl u rest => insert u (specURLSetLocsList rest)
  | .consSitemap _ sub rest => specURLSetLocs sub ∪ specURLSetLocsList rest

end

/-- A document all of whose loc entries are sitemap children, i.e. a pure
sitemap-index document. -/
def LocList.allSitemap : LocList → Bool
  | .nil => true
  | .consUrl _ _ => false
  | .consSitemap _ _ rest => LocList.allSitemap rest

/-- Modelled from the spec: the immediate child sitemap locations of an
Index document (the spec's "child sitemap locations"). -/
def specIndexChildLocs : LocList → Finset String
  | .nil => ∅
  | .consUrl _ rest => specIndexChildLocs rest
  | .consSitemap u _ rest => insert u (specIndexChildLocs rest)

/-- Concatenation of loc lists (used to speak about a failed child and its
siblings inside one document). -/
def LocList.append : LocList → LocList → LocList
  | .nil, ys => ys
  | .consUrl u rest, ys => .consUrl u (rest.append ys)
  | .consSitemap u s rest, ys => .consSitemap u s (rest.append ys)

/-! ## URL status checker model

`URLStatusChecker._check_url_status` (src/app.py lines 102-173) talks to the
network twice: `requests.get(url, ...)` and a raw TLS handshake on port 443.
Both outcomes are supplied by a `ProbeEnv` oracle; the wall-clock time of the
GET is the oracle field `elapsed`.
-/

/-- Exact runtime class of the exception raised by `requests.get`, as used
by the dictionary lookup `error_mapping.get(type(e))` (src/app.py lines
160-171).  `otherExc` stands for every class that is not literally one of
the three dictionary keys (subclasses included: `dict.get` on `type(e)`
does not walk the class hierarchy). -/
inductive ExcType : Type where
  | sslError : ExcType
  | connectionError : ExcType
  | timeout : ExcType
  | otherExc : ExcType
deriving DecidableEq

/-- The successful outcome of `requests.get`: status code, the URLs of the
redirect history responses (`r.url for r in response.history`), the final
response URL, and the two response headers the code reads (absent headers
are `none`). -/
structure HttpResponse : Type where
  status_code : Nat
  history_urls : List String
  url : String
  content_type : Option String
  server : Option String
deriving DecidableEq

/-- Outcome of the HTTP stage: a response, or an exception with its exact
class and its `str(e)` message. -/
inductive HttpResult : Type where
  | ok : HttpResponse → HttpResult
  | exn : ExcType → String → HttpResult
deriving DecidableEq

/-- Outcome of the raw TLS handshake block (src/app.py lines 148-158):
`ok` when `create_connection`, `wrap_socket` and `getpeercert` all succeed,
`exn` when any exception is raised inside the block. -/
inductive TlsResult : Type where
  | ok : TlsResult
  | exn : TlsResult
deriving DecidableEq

/-- Network/clock oracle for one probe. -/
structure ProbeEnv : Type where
  http : HttpResult
  elapsed : ℚ
  tls : TlsResult

/-- The result dictionary built by `_check_url_status` (src/app.py lines
109-119). -/
structure ProbeResult : Type where
  original_url : String
  status : String
  http_code : Option Nat
  redirect_chain : List String
  ssl_valid : Bool
  response_time : Option ℚ
  content_type : Option String
  server : Option String
  error : Option String
deriving DecidableEq

/-- Python's `round(q, 3)` modelled as round-half-up to 3 decimals (the
half-to-even tie behaviour of floats is irrelevant to every claim: no claim
constrains the numeric value). -/
def round3 (q : ℚ) : ℚ := ((⌊q * 1000 + 1 / 2⌋ : ℤ) : ℚ) / 1000

/-- The dictionary `error_mapping` of src/app.py lines 161-165, as the
lookup `error_mapping.get(type(e))`: only the three exact classes are
keys. -/
def error_mapping : ExcType → Option (String × String)
  | .sslError => some ("SSL Error", "SSL Certificate Verification Failed")
  | .connectionError => some ("Connection Error", "Unable to connect to the server")
  | .timeout => some ("Timeout", "Request timed out")
  | .otherExc => none

/-- `URLStatusChecker._check_url_status` (src/app.py lines 102-173).  The
result starts from the default dictionary; if the GET succeeds the HTTP
fields are updated and then the nested TLS block sets `ssl_valid`; if the
GET raises, control jumps to the outer `except` and only `status`/`error`
are updated from `error_mapping.get(type(e), ("Error", str(e)))` — the TLS
block, being inside the `try` after the GET, is never reached. -/
def check_url_status (env : ProbeEnv) (url : String) : ProbeResult :=
  let result : ProbeResult :=
    { original_url := url, status := "Unchecked", http_code := none,
      redirect_chain := [], ssl_valid := false, response_time := none,
      content_type := none, server := none, error := none }
  match env.http with
  | .ok resp =>
      let result :=
        { result with
          http_code := some resp.status_code,
          status :=
            if 200 ≤ resp.status_code ∧ resp.status_code < 400 then "Healthy"
            else "Unhealthy",
          redirect_chain := resp.history_urls ++ [resp.url],
          response_time := some (round3 env.elapsed),
          content_type := some (resp.content_type.getD "Unknown"),
          server := some (resp.server.getD "Unknown") }
      match env.tls with
      | .ok => { result with ssl_valid := true }
      | .exn => { result with ssl_valid := false }
  | .exn ty msg =>
      { result with
        status := ((error_mapping ty).getD ("Error", msg)).1,
        error := some ((error_mapping ty).getD ("Error", msg)).2 }

/-! ## Sampling and batching -/

/-- Python's `int()` applied to a rational: truncation toward zero. -/
def pythonInt (q : ℚ) : ℤ := if q < 0 then ⌈q⌉ else ⌊q⌋

/-- One draw sequence of `random.sample`: `pick` is the random oracle; draw
`k` times, each time removing the chosen position from the remaining
population, so positions are chosen without replacement.  (The empty-list
equation is unreachable when `k` is at most the population size.) -/
def drawSample (pick : Nat → Nat) : Nat → List String → List String
  | 0, _ => []
  | _ + 1, [] => []
  | k + 1, a :: l =>
      let idx := pick (k + 1) % (a :: l).length
      (a :: l).get ⟨idx, Nat.mod_lt _ (Nat.succ_pos _)⟩ ::
        drawSample pick k ((a :: l).eraseIdx idx)

/-- `random.sample(population, k)`: `k` elements at pairwise distinct
positions, or a `ValueError` (modelled as `none`) when `k` exceeds the
population size. -/
def random_sample (pick : Nat → Nat) (l : List String) (k : Nat) :
    Option (List String) :=
  if k ≤ l.length then some (drawSample pick k l) else none

/-- `URLStatusChecker._sample_urls` (src/app.py lines 89-100): all of
`urls` when `sampling_rate >= 1.0`, otherwise
`random.sample(urls, max(1, int(len(urls) * sampling_rate)))`. -/
def sample_urls (pick : Nat → Nat) (sampling_rate : ℚ) (urls : List String) :
    Option (List String) :=
  if 1 ≤ sampling_rate then some urls
  else random_sample pick urls (max 1 (pythonInt (urls.length * sampling_rate)).toNat)

/-- The slicing loop
`[sampled_urls[i:i + batch_size] for i in range(0, len(sampled_urls), batch_size)]`
(src/app.py line 187): successive contiguous chunks of size `k`. -/
def chunkList (k : Nat) (hk : 0 < k) : List String → List (List String)
  | [] => []
  | l@(_ :: _) => l.take k :: chunkList k hk (l.drop k)
termination_by l => l.length
decreasing_by simp_all [List.length_drop]

/-- The batching step of `URLStatusChecker.batch_url_status_check`
(src/app.py lines 185-189).  `if self.batch_size:` is Python truthiness:
both `None` and `0` take the else branch (one batch holding everything). -/
def batched_urls (batch_size : Option Nat) (sampled : List String) :
    List (List String) :=
  match batch_size with
  | none => [sampled]
  | some 0 => [sampled]
  | some (k + 1) => chunkList (k + 1) (Nat.succ_pos k) sampled

/-- `URLStatusChecker.batch_url_status_check` (src/app.py lines 175-207):
sample, partition into batches, and for each batch in order run one probe
per URL, collecting that batch's results in worker completion order —
modelled by the `reorder` oracle applied to the submission-order list —
before the next batch starts.  `none` propagates the `ValueError` that
`random.sample` raises when the sample size exceeds the population. -/
def batch_url_status_check (env : String → ProbeEnv) (pick : Nat → Nat)
    (reorder : List ProbeResult → List ProbeResult) (sampling_rate : ℚ)
    (batch_size : Option Nat) (urls : List String) : Option (List ProbeResult) :=
  (sample_urls pick sampling_rate urls).map fun sampled =>
    ((batched_urls batch_size sampled).map fun batch =>
      reorder (batch.map fun u => check_url_status (env u) u)).flatten

/-! ## Concrete inputs used by counterexamples and witnesses -/

/-- A sitemap-index document referencing one URLSet child with a single
page. -/
def ce1Tree : SitemapTree :=
  .doc (.consSitemap "https://e.com/child.xml"
    (.doc (.consUrl "https://e.com/p1" .nil)) .nil)

/-- A sitemap-index document with one URLSet child, used at maxDepth 0. -/
def ce3Tree : SitemapTree :=
  .doc (.consSitemap "https://e.com/a.xml"
    (.doc (.consUrl "https://e.com/page" .nil)) .nil)

/-- The round-trip example of the spec: an index referencing two URLSet
documents with 3 and 5 distinct URLs. -/
def w1Tree : SitemapTree :=
  .doc (.consSitemap "s1"
    (.doc (.consUrl "u1" (.consUrl "u2" (.consUrl "u3" .nil))))
    (.consSitemap "s2"
      (.doc (.consUrl "v1" (.consUrl "v2" (.consUrl "v3"
        (.consUrl "v4" (.consUrl "v5" .nil))))))
      .nil))

/-- A pure index document: two sitemap children, both failing. -/
def w3List : LocList := .consSitemap "s1" .fetchFail (.consSitemap "s2" .parseFail .nil)

/-- Sibling prefix for the C9 witness: one plain URL record. -/
def w9Pre : LocList := .consUrl "a" .nil

/-- Sibling suffix for the C9 witness: a healthy URLSet child. -/
def w9Post : LocList := .consSitemap "s" (.doc (.consUrl "b" .nil)) .nil

/-- Probe oracle: the GET returns 404 with no redirects and no headers, the
TLS handshake succeeds. -/
def env404 : ProbeEnv := ⟨.ok ⟨404, [], "https://e.com/x", none, none⟩, 0, .ok⟩

/-- Probe oracle: the GET raises `requests.exceptions.Timeout` while the
raw TLS handshake would succeed. -/
def envTimeoutTlsOk : ProbeEnv := ⟨.exn .timeout "timed out", 0, .ok⟩

/-- Probe oracle: the GET raises an exception class outside the mapping. -/
def envOther : ProbeEnv := ⟨.exn .otherExc "boom", 0, .exn⟩

/-- Probe oracle: the GET returns 200 with one redirect hop. -/
def env200 : ProbeEnv :=
  ⟨.ok ⟨200, ["https://e.com/r0"], "https://e.com/final", some "text/html", some "nginx"⟩, 0, .exn⟩

/-- Probe oracle: the GET raises `requests.exceptions.SSLError`. -/
def envSslErr : ProbeEnv := ⟨.exn .sslError "cert fail", 0, .exn⟩

/-- Random oracle that always picks the first remaining element. -/
def pick0 : Nat → Nat := fun _ => 0

/-- Identity completion order (submission order). -/
def reorderId : List ProbeResult → List ProbeResult := fun l => l

/-! ## Sitemap resolution: supporting lemmas -/

theorem locTexts_append : ∀ (a b : LocList),
    locTexts (a.append b) = locTexts a ++ locTexts b
  | .nil, _ => rfl
  | .consUrl u rest, b => by
      simp [LocList.append, locTexts, locTexts_append rest b]
  | .consSitemap u s rest, b => by
      simp [LocList.append, locTexts, locTexts_append rest b]

theorem childUrls_append (r : Bool) (md : Nat) : ∀ (a b : LocList) (d : Nat),
    childUrls r md (a.append b) d = childUrls r md a d ++ childUrls r md b d
  | .nil, _, _ => by simp [LocList.append, childUrls]
  | .consUrl u rest, b, d => by
      simp [LocList.append, childUrls, childUrls_append r md rest b d]
  | .consSitemap u .fetchFail rest, b, d => by
      simp [LocList.append, childUrls, childUrls_append r md rest b d]
  | .consSitemap u .parseFail rest, b, d => by
      simp [LocList.append, childUrls, childUrls_append r md rest b d]
  | .consSitemap u (.doc ls) rest, b, d => by
      simp [LocList.append, childUrls, childUrls_append r md rest b d]

theorem specAllLocsList_decomp : ∀ ls : LocList,
    specAllLocsList ls = (locTexts ls).toFinset ∪ specChildren ls
  | .nil => by simp [specAllLocsList, locTexts, specChildren]
  | .consUrl u rest => by
      simp [specAllLocsList, locTexts, specChildren, specAllLocsList_decomp rest,
        Finset.insert_union]
  | .consSitemap u sub rest => by
      have ih := specAllLocsList_decomp rest
      ext x
      simp [specAllLocsList, locTexts, specChildren, ih]
      tauto

theorem specChildren_empty : ∀ ls : LocList,
    LocList.depth ls = 0 → specChildren ls = ∅
  | .nil, _ => rfl
  | .consUrl _ rest, h => specChildren_empty rest (by simpa [LocList.depth] using h)
  | .consSitemap _ sub rest, h => by
      simp [LocList.depth] at h

mutual

/-- Below the depth bound, the traversal collects exactly the loc texts of
all parsed documents of the subtree. -/
theorem parse_sitemap_spec (md cur : Nat) (ls : LocList)
    (h : cur + LocList.depth ls ≤ md) :
    (parse_sitemap true md ls cur).toFinset = specAllLocsList ls := by
  rw [parse_sitemap]
  by_cases hd : cur < md
  · rw [if_pos ⟨rfl, hd⟩, List.toFinset_append,
      childUrls_spec md (cur + 1) ls (by omega), specAllLocsList_decomp]
  · rw [if_neg (by simp [hd]), List.append_nil, specAllLocsList_decomp,
      specChildren_empty ls (by omega), Finset.union_empty]
termination_by (sizeOf ls, 1)

/-- Below the depth bound, the child loop collects exactly the loc sets of
the child subtrees. -/
theorem childUrls_spec (md d : Nat) (ls : LocList)
    (h : d + LocList.depth ls ≤ md + 1) :
    (childUrls true md ls d).toFinset = specChildren ls := by
  cases ls with
  | nil => simp [childUrls, specChildren]
  | consUrl u rest =>
      have ih := childUrls_spec md d rest (by simpa [LocList.depth] using h)
      simpa [childUrls, specChildren] using ih
  | consSitemap u sub rest =>
      cases sub with
      | fetchFail =>
          have ih := childUrls_spec md d rest
            (by simp [LocList.depth] at h ⊢; omega)
          simpa [childUrls, specChildren, specAllLocs] using ih
      | parseFail =>
          have ih := childUrls_spec md d rest
            (by simp [LocList.depth] at h ⊢; omega)
          simpa [childUrls, specChildren, specAllLocs] using ih
      | doc ls2 =>
          have h2 : d + LocList.depth ls2 ≤ md := by
            simp [LocList.depth, SitemapTree.depth] at h; omega
          have hp := parse_sitemap_spec md d ls2 h2
          have ih := childUrls_spec md d rest
            (by simp [LocList.depth] at h ⊢; omega)
          simp [childUrls, specChildren, specAllLocs, hp, ih]
termination_by (sizeOf ls, 0)

end

/-- Deduplicating a list does not change the finset of its elements. -/
theorem dedup_toFinset_eq (l : List String) : l.dedup.toFinset = l.toFinset := by
  ext x
  simp

/-! ## Claims about sitemap resolution -/

/-- Claim C1, counterexample: for an index document referencing one URLSet
document (a tree of depth 1 ≤ maxDepth = 3), the child sitemap location
itself appears in the result of `extract_urls_from_sitemap`, although it is
not a URL location of any URLSet document of the tree — because the XPath
`.//ns:loc` also matches `sitemap/loc` elements.  This refutes "nothing
else (in particular no sitemap-index child locations) appears in the
result". -/
theorem C1_counterexample :
    SitemapTree.depth ce1Tree ≤ 3 ∧
    "https://e.com/child.xml" ∈ extract_urls_from_sitemap true 3 ce1Tree ∧
    "https://e.com/child.xml" ∉ specURLSetLocs ce1Tree := by
  refine ⟨by decide, ?_, by decide⟩
  simp [ce1Tree, extract_urls_from_sitemap, List.mem_dedup, parse_sitemap,
    childUrls, locTexts]

/-- Claim C1, amended: for every sitemap tree of depth at most maxDepth,
`extract_urls_from_sitemap` returns exactly the deduplicated union of the
texts of all loc elements of all successfully parsed documents in the tree
— every URLSet location appears, and additionally the sitemap-index child
locations of every parsed document appear; nothing else appears. -/
theorem C1_amended_thm (md : Nat) (t : SitemapTree) (h : t.depth ≤ md) :
    (extract_urls_from_sitemap true md t).toFinset = specAllLocs t := by
  cases t with
  | fetchFail => simp [extract_urls_from_sitemap, specAllLocs]
  | parseFail => simp [extract_urls_from_sitemap, specAllLocs]
  | doc ls =>
      show (parse_sitemap true md ls 0).dedup.toFinset = specAllLocsList ls
      rw [dedup_toFinset_eq]
      exact parse_sitemap_spec md 0 ls (by simpa [SitemapTree.depth] using h)

/-- Witness for C1 (amended) at the spec's round-trip example: an index
referencing two URLSet documents with 3 and 5 distinct URLs, at depth 1 ≤
maxDepth = 3. -/
theorem C1_amended_witness :
    SitemapTree.depth w1Tree ≤ 3 ∧
    (extract_urls_from_sitemap true 3 w1Tree).toFinset = specAllLocs w1Tree :=
  ⟨by decide, C1_amended_thm 3 w1Tree (by decide)⟩

/-- Claim C3, counterexample: with maxDepth = 0, an index document with one
URLSet child yields the child sitemap location itself — a nonempty result —
although no child is followed (the child's page URL is absent).  This
refutes "returns an empty set". -/
theorem C3_counterexample :
    extract_urls_from_sitemap true 0 ce3Tree = ["https://e.com/a.xml"] ∧
    "https://e.com/page" ∉ extract_urls_from_sitemap true 0 ce3Tree := by
  have h : extract_urls_from_sitemap true 0 ce3Tree = ["https://e.com/a.xml"] := by
    simp [ce3Tree, extract_urls_from_sitemap, parse_sitemap, childUrls, locTexts,
      List.dedup]
  exact ⟨h, by rw [h]; simp⟩

/-- On a pure index document, the loc texts are exactly the child sitemap
locations. -/
theorem locTexts_toFinset_allSitemap : ∀ ls : LocList, LocList.allSitemap ls = true →
    (locTexts ls).toFinset = specIndexChildLocs ls
  | .nil, _ => by simp [locTexts, specIndexChildLocs]
  | .consUrl _ _, h => by simp [LocList.allSitemap] at h
  | .consSitemap u sub rest, h => by
      simp [locTexts, specIndexChildLocs,
        locTexts_toFinset_allSitemap rest (by simpa [LocList.allSitemap] using h)]

/-- Claim C3, amended: `extract_urls_from_sitemap` with maxDepth = 0 on a
sitemap-index document follows no child sitemap and returns exactly the set
of the index's own child sitemap locations (not the empty set). -/
theorem C3_amended_thm (ls : LocList) (h : LocList.allSitemap ls = true) :
    (extract_urls_from_sitemap true 0 (.doc ls)).toFinset = specIndexChildLocs ls := by
  show (parse_sitemap true 0 ls 0).dedup.toFinset = specIndexChildLocs ls
  rw [dedup_toFinset_eq, parse_sitemap]
  simp only [Nat.lt_irrefl, and_false, if_false, List.append_nil]
  exact locTexts_toFinset_allSitemap ls h

/-- Witness for C3 (amended) at a pure index document with two failing
children. -/
theorem C3_amended_witness :
    LocList.allSitemap w3List = true ∧
    (extract_urls_from_sitemap true 0 (.doc w3List)).toFinset = specIndexChildLocs w3List :=
  ⟨by decide, C3_amended_thm w3List (by decide)⟩

/-- Claim C8: for every recursion flag, depth bound and tree of
fetch/parse outcomes, the returned URL list has no duplicates
(`list(set(...))`). -/
theorem C8_nodup (recursive : Bool) (md : Nat) (t : SitemapTree) :
    (extract_urls_from_sitemap recursive md t).Nodup := by
  cases t with
  | fetchFail => simp [extract_urls_from_sitemap]
  | parseFail => simp [extract_urls_from_sitemap]
  | doc ls =>
      show (parse_sitemap recursive md ls 0).dedup.Nodup
      exact List.nodup_dedup _

/-- Claim C9: a fetch or parse failure at a non-root node is non-fatal.
Inside any parsed document, replace one sitemap child whose fetch or parse
fails: the traversal result is exactly the failed child's own location
together with the full contributions of the sibling prefix and the sibling
suffix — the failed subtree contributes zero URLs and every sibling subtree
still contributes all of its URLs. -/
theorem C9_thm (md cur : Nat) (pre post : LocList) (u : String)
    (sub : SitemapTree) (hsub : sub = .fetchFail ∨ sub = .parseFail) :
    (parse_sitemap true md (pre.append (.consSitemap u sub post)) cur).toFinset =
      insert u ((parse_sitemap true md pre cur).toFinset ∪
        (parse_sitemap true md post cur).toFinset) := by
  have hchild : ∀ d, childUrls true md (.consSitemap u sub post) d
      = childUrls true md post d := by
    rcases hsub with h | h <;> subst h <;> intro d <;> simp [childUrls]
  rw [parse_sitemap, parse_sitemap, parse_sitemap]
  by_cases hd : cur < md
  · rw [if_pos ⟨rfl, hd⟩, if_pos ⟨rfl, hd⟩, if_pos ⟨rfl, hd⟩,
      locTexts_append, childUrls_append, hchild]
    ext x
    simp [locTexts]
    tauto
  · rw [if_neg (by simp [hd]), if_neg (by simp [hd]), if_neg (by simp [hd]),
      locTexts_append]
    ext x
    simp [locTexts]

/-- Witness for C9: a document with a URL record, a fetch-failing sitemap
child, and a healthy URLSet sibling. -/
theorem C9_witness :
    ((.fetchFail : SitemapTree) = .fetchFail ∨ (.fetchFail : SitemapTree) = .parseFail) ∧
    (parse_sitemap true 3 (w9Pre.append (.consSitemap "f" .fetchFail w9Post)) 0).toFinset =
      insert "f" ((parse_sitemap true 3 w9Pre 0).toFinset ∪
        (parse_sitemap true 3 w9Post 0).toFinset) :=
  ⟨Or.inl rfl, C9_thm 3 0 w9Pre w9Post "f" .fetchFail (Or.inl rfl)⟩

/-! ## Claims about the probe (HTTP stage, TLS stage) -/

/-- Claim C2, counterexample: when the GET raises (here a Timeout) while the
raw TLS handshake would succeed, `ssl_valid` is not determined by the
handshake: the TLS block sits inside the `try` after the GET and is never
reached on an HTTP-stage failure, so `ssl_valid` stays at its default
`false`.  This refutes "the TLS stage is attempted even when the HTTP stage
fails / ssl_valid is still independently determined by the handshake". -/
theorem C2_counterexample :
    envTimeoutTlsOk.tls = .ok ∧
    (check_url_status envTimeoutTlsOk "https://e.com").status = "Timeout" ∧
    (check_url_status envTimeoutTlsOk "https://e.com").ssl_valid = false := by
  refine ⟨rfl, ?_, ?_⟩ <;> simp [envTimeoutTlsOk, check_url_status, error_mapping]

/-- Claim C2, amended: the TLS stage runs only when the HTTP stage succeeds.
On an HTTP-stage failure, `http_code`, redirect chain, content-type, server
and `response_time` remain at their unset/default values and `ssl_valid`
remains `false` (the handshake is not attempted); when the HTTP stage
succeeds, `ssl_valid` reflects exactly the handshake outcome; and the TLS
outcome never changes the status produced by the HTTP stage. -/
theorem C2_amended_thm (env : ProbeEnv) (url : String) :
    (∀ ty msg, env.http = .exn ty msg →
      (check_url_status env url).http_code = none ∧
      (check_url_status env url).redirect_chain = [] ∧
      (check_url_status env url).content_type = none ∧
      (check_url_status env url).server = none ∧
      (check_url_status env url).response_time = none ∧
      (check_url_status env url).ssl_valid = false) ∧
    (∀ resp, env.http = .ok resp →
      ((check_url_status env url).ssl_valid = true ↔ env.tls = .ok)) ∧
    (∀ env2 : ProbeEnv, env2.http = env.http →
      (check_url_status env2 url).status = (check_url_status env url).status) := by
  refine ⟨?_, ?_, ?_⟩
  · intro ty msg h
    simp [check_url_status, h]
  · intro resp h
    cases htls : env.tls <;> simp [check_url_status, h, htls]
  · intro env2 h2
    rcases env with ⟨http, el, tls⟩
    rcases env2 with ⟨http2, el2, tls2⟩
    simp only at h2
    subst h2
    cases http2 with
    | ok resp => cases tls <;> cases tls2 <;> simp [check_url_status]
    | exn ty msg => simp [check_url_status]

/-- Witness for C2 (amended): a GET that raises an unmapped exception leaves
`http_code` unset and `ssl_valid` false. -/
theorem C2_amended_witness :
    envOther.http = .exn .otherExc "boom" ∧
    (check_url_status envOther "u").http_code = none ∧
    (check_url_status envOther "u").ssl_valid = false :=
  ⟨rfl, ((C2_amended_thm envOther "u").1 .otherExc "boom" rfl).1,
    ((C2_amended_thm envOther "u").1 .otherExc "boom" rfl).2.2.2.2.2⟩

/-- Claim C4: when the GET raises, the recorded status comes from the
dictionary lookup on the exact exception class — mutually exclusive by
construction: SSLError yields "SSL Error", ConnectionError yields
"Connection Error", Timeout yields "Timeout", and any other class yields
"Error" with the raw exception message as the error detail. -/
theorem C4_thm (env : ProbeEnv) (url : String) (ty : ExcType) (msg : String)
    (h : env.http = .exn ty msg) :
    (ty = .sslError → (check_url_status env url).status = "SSL Error") ∧
    (ty = .connectionError → (check_url_status env url).status = "Connection Error") ∧
    (ty = .timeout → (check_url_status env url).status = "Timeout") ∧
    (ty = .otherExc → (check_url_status env url).status = "Error" ∧
      (check_url_status env url).error = some msg) := by
  cases ty <;> simp [check_url_status, h, error_mapping]

/-- Witness for C4: an SSLError GET is classified "SSL Error". -/
theorem C4_witness :
    envSslErr.http = .exn .sslError "cert fail" ∧
    (check_url_status envSslErr "u").status = "SSL Error" :=
  ⟨rfl, (C4_thm envSslErr "u" .sslError "cert fail" rfl).1 rfl⟩

/-- Claim C7: when the GET succeeds with status code c, the recorded status
is "Healthy" exactly when 200 ≤ c < 400 and "Unhealthy" otherwise, and
`http_code` records c. -/
theorem C7_thm (env : ProbeEnv) (url : String) (resp : HttpResponse)
    (h : env.http = .ok resp) :
    (check_url_status env url).http_code = some resp.status_code ∧
    ((check_url_status env url).status = "Healthy" ↔
      (200 ≤ resp.status_code ∧ resp.status_code < 400)) ∧
    ((check_url_status env url).status = "Unhealthy" ↔
      ¬(200 ≤ resp.status_code ∧ resp.status_code < 400)) := by
  cases htls : env.tls <;>
    by_cases hc : 200 ≤ resp.status_code ∧ resp.status_code < 400 <;>
      simp [check_url_status, h, htls, hc]

/-- Witness for C7 at the spec's example: a 404 response yields "Unhealthy"
with http_code 404. -/
theorem C7_witness :
    env404.http = .ok ⟨404, [], "https://e.com/x", none, none⟩ ∧
    (check_url_status env404 "https://e.com/x").http_code = some 404 ∧
    (check_url_status env404 "https://e.com/x").status = "Unhealthy" := by
  refine ⟨rfl, (C7_thm env404 "https://e.com/x" ⟨404, [], "https://e.com/x", none, none⟩ rfl).1, ?_⟩
  exact ((C7_thm env404 "https://e.com/x" ⟨404, [], "https://e.com/x", none, none⟩ rfl).2.2).mpr
    (by decide)

/-! ## Claims about sampling -/

theorem drawSample_length (pick : Nat → Nat) : ∀ (k : Nat) (l : List String),
    k ≤ l.length → (drawSample pick k l).length = k
  | 0, _, _ => rfl
  | k + 1, [], h => by simp at h
  | k + 1, a :: l, h => by
      have hlt : pick (k + 1) % (a :: l).length < (a :: l).length :=
        Nat.mod_lt _ (Nat.succ_pos _)
      have ih := drawSample_length pick k
        ((a :: l).eraseIdx (pick (k + 1) % (a :: l).length))
        (by rw [List.length_eraseIdx_of_lt hlt]; simp at h ⊢; omega)
      simp only [List.length_cons] at ih
      simp [drawSample, ih]

theorem drawSample_subset (pick : Nat → Nat) : ∀ (k : Nat) (l : List String)
    (x : String), x ∈ drawSample pick k l → x ∈ l
  | 0, _, _, hx => by simp [drawSample] at hx
  | _ + 1, [], _, hx => by simp [drawSample] at hx
  | k + 1, a :: l, x, hx => by
      simp only [drawSample, List.mem_cons] at hx
      rcases hx with h | h
      · exact h ▸ List.get_mem _ _ _
      · exact List.Sublist.subset (List.eraseIdx_sublist _ _)
          (drawSample_subset pick k _ x h)

theorem get_not_mem_eraseIdx : ∀ (l : List String) (i : Nat) (h : i < l.length),
    l.Nodup → l.get ⟨i, h⟩ ∉ l.eraseIdx i
  | [], i, h, _ => by simp at h
  | a :: l, 0, _, hnd => by
      simp only [List.get, List.eraseIdx_cons_zero]
      exact (List.nodup_cons.mp hnd).1
  | a :: l, i + 1, h, hnd => by
      rcases List.nodup_cons.mp hnd with ⟨ha, hnl⟩
      have hi : i < l.length := Nat.lt_of_succ_lt_succ h
      have ih := get_not_mem_eraseIdx l i hi hnl
      simp only [List.get_cons_succ, List.eraseIdx_cons_succ, List.mem_cons]
      rintro (heq | hmem)
      · exact ha (heq ▸ List.get_mem l i hi)
      · exact ih hmem

theorem drawSample_nodup (pick : Nat → Nat) : ∀ (k : Nat) (l : List String),
    l.Nodup → (drawSample pick k l).Nodup
  | 0, _, _ => by simp [drawSample]
  | _ + 1, [], _ => by simp [drawSample]
  | k + 1, a :: l, hnd => by
      have hlt : pick (k + 1) % (a :: l).length < (a :: l).length :=
        Nat.mod_lt _ (Nat.succ_pos _)
      have hsub := List.Nodup.sublist (List.eraseIdx_sublist (a :: l)
        (pick (k + 1) % (a :: l).length)) hnd
      have ih := drawSample_nodup pick k _ hsub
      have hnotin := get_not_mem_eraseIdx (a :: l) _ hlt hnd
      simp only [drawSample, List.nodup_cons]
      exact ⟨fun hmem => hnotin (drawSample_subset pick k _ _ hmem), ih⟩

/-- Claim C5, counterexample.  Two defects: (a) on an input list containing
a repeated URL, the drawn sample can contain that URL twice — positions are
drawn without replacement, values are not — refuting "with no duplicates"
for arbitrary URL lists; (b) on the empty list with rate < 1.0 the sample
size is max(1, 0) = 1 > 0, so `random.sample` raises ValueError instead of
returning a list. -/
theorem C5_counterexample :
    (sample_urls pick0 (7 / 10) ["a", "a", "b"] = some ["a", "a"] ∧
      ¬ (["a", "a"] : List String).Nodup) ∧
    sample_urls pick0 (1 / 2) [] = none := by
  constructor
  · constructor
    · have hc : max 1 (pythonInt ((["a", "a", "b"] : List String).length * (7 / 10 : ℚ))).toNat = 2 := by
        norm_num [pythonInt]
        decide
      rw [sample_urls, if_neg (by norm_num), hc, random_sample,
        if_pos (by norm_num)]
      simp [drawSample, pick0]
    · decide
  · rw [sample_urls, if_neg (by norm_num)]
    norm_num [pythonInt, random_sample]

/-- Claim C5, amended: if sampling_rate ≥ 1.0, `_sample_urls` returns all of
urls unchanged.  If 0 ≤ sampling_rate < 1.0 and urls is nonempty, it returns
exactly max(1, floor(sampling_rate · |urls|)) URLs, all drawn from urls at
pairwise distinct positions, so the sample has no duplicates whenever urls
itself has none.  If urls is empty and sampling_rate < 1.0, the call raises
ValueError (no list is returned). -/
theorem C5_amended_thm (pick : Nat → Nat) (rate : ℚ) (urls : List String) :
    (1 ≤ rate → sample_urls pick rate urls = some urls) ∧
    (0 ≤ rate → rate < 1 → urls ≠ [] →
      ∃ s, sample_urls pick rate urls = some s ∧
        s.length = max 1 (Int.toNat ⌊rate * (urls.length : ℚ)⌋) ∧
        (∀ x ∈ s, x ∈ urls) ∧
        (urls.Nodup → s.Nodup)) ∧
    (rate < 1 → sample_urls pick rate [] = none) := by
  refine ⟨?_, ?_, ?_⟩
  · intro h1
    rw [sample_urls, if_pos h1]
  · intro h0 h1 hne
    have hn : 1 ≤ urls.length := List.length_pos.mpr hne
    have hq0 : (0 : ℚ) ≤ (urls.length : ℚ) * rate := mul_nonneg (by positivity) h0
    have hpy : pythonInt ((urls.length : ℚ) * rate) = ⌊(urls.length : ℚ) * rate⌋ := by
      rw [pythonInt, if_neg (not_lt.mpr hq0)]
    have hflt : ⌊(urls.length : ℚ) * rate⌋ < (urls.length : ℤ) := by
      apply Int.floor_lt.mpr
      push_cast
      exact mul_lt_of_lt_one_right (by exact_mod_cast hn) h1
    have hk : max 1 (pythonInt ((urls.length : ℚ) * rate)).toNat ≤ urls.length := by
      rw [hpy]
      omega
    refine ⟨drawSample pick (max 1 (pythonInt ((urls.length : ℚ) * rate)).toNat) urls,
      ?_, ?_, ?_, ?_⟩
    · rw [sample_urls, if_neg (not_le.mpr h1), random_sample, if_pos hk]
    · rw [drawSample_length pick _ urls hk, hpy, mul_comm rate ((urls.length : ℚ))]
    · exact fun x hx => drawSample_subset pick _ urls x hx
    · exact fun hnd => drawSample_nodup pick _ urls hnd
  · intro h1
    rw [sample_urls, if_neg (not_le.mpr h1)]
    norm_num [pythonInt, random_sample]

/-- Witness for C5 (amended): rate 2 returns the whole list; rate 0 on a
two-element list draws max(1, 0) = 1 element from it. -/
theorem C5_amended_witness :
    ((1 : ℚ) ≤ 2 ∧ sample_urls pick0 2 ["a", "b"] = some ["a", "b"]) ∧
    ((0 : ℚ) ≤ 0 ∧ (0 : ℚ) < 1 ∧ (["a", "b"] : List String) ≠ [] ∧
      ∃ s, sample_urls pick0 0 ["a", "b"] = some s ∧
        s.length = max 1 (Int.toNat ⌊(0 : ℚ) * (((["a", "b"] : List String)).length : ℚ)⌋) ∧
        (∀ x ∈ s, x ∈ (["a", "b"] : List String)) ∧
        ((["a", "b"] : List String).Nodup → s.Nodup)) := by
  refine ⟨⟨by norm_num, (C5_amended_thm pick0 2 ["a", "b"]).1 (by norm_num)⟩,
    le_refl 0, by norm_num, by simp, ?_⟩
  exact (C5_amended_thm pick0 0 ["a", "b"]).2.1 (le_refl 0) (by norm_num) (by simp)

/-! ## Claims about batching -/

theorem chunkList_flatten (k : Nat) (hk : 0 < k) : ∀ l : List String,
    (chunkList k hk l).flatten = l
  | [] => by simp [chunkList]
  | a :: l => by
      have ih := chunkList_flatten k hk ((a :: l).drop k)
      simp [chunkList, ih]
termination_by l => l.length
decreasing_by simp [List.length_drop]; omega

theorem chunkList_mem_length (k : Nat) (hk : 0 < k) : ∀ (l c : List String),
    c ∈ chunkList k hk l → c.length ≤ k ∧ c ≠ []
  | [], c, hc => by simp [chunkList] at hc
  | a :: l, c, hc => by
      simp only [chunkList, List.mem_cons] at hc
      rcases hc with rfl | h
      · refine ⟨by simp, ?_⟩
        obtain ⟨k, rfl⟩ : ∃ m, k = m + 1 := ⟨k - 1, by omega⟩
        simp [List.take_succ_cons]
      · exact chunkList_mem_length k hk _ c h
termination_by l _ _ => l.length
decreasing_by simp [List.length_drop]; omega

theorem chunkList_dropLast_length (k : Nat) (hk : 0 < k) : ∀ (l c : List String),
    c ∈ (chunkList k hk l).dropLast → c.length = k
  | [], c, hc => by simp [chunkList] at hc
  | a :: l, c, hc => by
      by_cases hd : (a :: l).drop k = []
      · simp [chunkList, hd] at hc
      · have hne : chunkList k hk ((a :: l).drop k) ≠ [] := by
          cases hdrop : (a :: l).drop k with
          | nil => exact absurd hdrop hd
          | cons b m => simp [chunkList]
        simp only [chunkList] at hc
        rw [List.dropLast_cons_of_ne_nil hne] at hc
        rcases List.mem_cons.mp hc with rfl | h
        · have hkle : k ≤ (a :: l).length := by
            by_contra hgt
            exact hd (List.drop_eq_nil_iff.mpr (by omega))
          simp only [List.length_cons] at hkle
          simp [List.length_take, hkle]
        · exact chunkList_dropLast_length k hk _ c h
termination_by l _ _ => l.length
decreasing_by simp [List.length_drop]; omega

/-- Claim C6: with a positive batch_size k, the batches are contiguous
chunks whose concatenation in order is exactly the sampled list, every
batch except possibly the last has length k, and every batch is at most k
long (and nonempty); with batch_size unset there is a single batch holding
the whole sampled list. -/
theorem C6_thm (k : Nat) (sampled : List String) :
    batched_urls none sampled = [sampled] ∧
    (batched_urls (some (k + 1)) sampled).flatten = sampled ∧
    (∀ c ∈ (batched_urls (some (k + 1)) sampled).dropLast, c.length = k + 1) ∧
    (∀ c ∈ batched_urls (some (k + 1)) sampled, c.length ≤ k + 1 ∧ c ≠ []) := by
  refine ⟨rfl, chunkList_flatten (k + 1) (Nat.succ_pos k) sampled, ?_, ?_⟩
  · exact fun c hc => chunkList_dropLast_length (k + 1) (Nat.succ_pos k) sampled c hc
  · exact fun c hc => chunkList_mem_length (k + 1) (Nat.succ_pos k) sampled c hc

/-- Witness for C6: batch size 2 over a three-element list: batches
concatenate back to the list, the non-final batch has length 2, and the
no-limit configuration yields one batch. -/
theorem C6_witness :
    (batched_urls (some 2) ["a", "b", "c"]).flatten = ["a", "b", "c"] ∧
    batched_urls none ["a", "b", "c"] = [["a", "b", "c"]] ∧
    (["a", "b"] : List String).length = 2 :=
  ⟨(C6_thm 1 ["a", "b", "c"]).2.1, (C6_thm 1 ["a", "b", "c"]).1,
    (C6_thm 1 ["a", "b", "c"]).2.2.1 ["a", "b"]
      (by simp [batched_urls, chunkList])⟩

/-! ## Claims about the batch driver -/

/-- Concatenating the batches reproduces the sampled list for every
batch-size configuration. -/
theorem batched_urls_flatten (bs : Option Nat) (sampled : List String) :
    (batched_urls bs sampled).flatten = sampled := by
  cases bs with
  | none => simp [batched_urls]
  | some k =>
      cases k with
      | zero => simp [batched_urls]
      | succ k => exact chunkList_flatten (k + 1) (Nat.succ_pos k) sampled

/-- The probe never touches the `original_url` field set at initialization. -/
theorem check_url_status_original (e : ProbeEnv) (u : String) :
    (check_url_status e u).original_url = u := by
  rcases e with ⟨http, el, tls⟩
  cases http <;> cases tls <;> simp [check_url_status]

/-- Claim C10: whenever sampling succeeds, `batch_url_status_check` returns
exactly one ProbeResult per sampled URL whatever each probe's outcome and
whatever completion order the worker pool produces: each result's
`original_url` is the URL that was probed, and the multiset of
`original_url` values of the output is exactly the multiset of sampled
URLs. -/
theorem C10_thm (env : String → ProbeEnv) (pick : Nat → Nat)
    (reorder : List ProbeResult → List ProbeResult) (rate : ℚ) (bs : Option Nat)
    (urls sampled : List String) (results : List ProbeResult)
    (hre : ∀ l, (reorder l).Perm l)
    (hs : sample_urls pick rate urls = some sampled)
    (hr : batch_url_status_check env pick reorder rate bs urls = some results) :
    (∀ e u, (check_url_status e u).original_url = u) ∧
    (results.map fun r => r.original_url).Perm sampled := by
  refine ⟨check_url_status_original, ?_⟩
  rw [batch_url_status_check, hs, Option.map_some'] at hr
  have hres := (Option.some.injEq _ _).mp hr.symm
  subst hres
  have key : ∀ bl : List (List String),
      (((bl.map fun batch => reorder (batch.map fun u => check_url_status (env u) u)).flatten).map
        fun r => r.original_url).Perm bl.flatten := by
    intro bl
    induction bl with
    | nil => simp
    | cons b rest ih =>
        simp only [List.map_cons, List.flatten_cons, List.map_append]
        refine List.Perm.append ?_ ih
        have h1 : ((reorder (b.map fun u => check_url_status (env u) u)).map
            fun r => r.original_url).Perm
              ((b.map fun u => check_url_status (env u) u).map
                fun r => r.original_url) :=
          (hre _).map _
        have h2 : ((b.map fun u => check_url_status (env u) u).map
            fun r => r.original_url) = b := by
          rw [List.map_map]
          have hcong : List.map ((fun r : ProbeResult => r.original_url) ∘
              fun u => check_url_status (env u) u) b = List.map (fun u => u) b :=
            List.map_congr_left fun u _ => check_url_status_original (env u) u
          rw [hcong]
          simp
        rw [h2] at h1
        exact h1
  have := key (batched_urls bs sampled)
  rwa [batched_urls_flatten bs sampled] at this

/-- Witness for C10: three URLs, rate 2 (everything sampled), batch size 2,
constant probe outcome, submission-order completion. -/
theorem C10_witness :
    (∀ l, (reorderId l).Perm l) ∧
    sample_urls pick0 2 ["a", "b", "c"] = some ["a", "b", "c"] ∧
    ∃ results,
      batch_url_status_check (fun _ => env200) pick0 reorderId 2 (some 2) ["a", "b", "c"]
        = some results ∧
      (results.map fun r => r.original_url).Perm ["a", "b", "c"] := by
  have hre : ∀ l, (reorderId l).Perm l := fun l => List.Perm.refl l
  have hs : sample_urls pick0 2 ["a", "b", "c"] = some ["a", "b", "c"] := by
    rw [sample_urls, if_pos (by norm_num)]
  have hr : batch_url_status_check (fun _ => env200) pick0 reorderId 2 (some 2) ["a", "b", "c"]
      = some (((batched_urls (some 2) ["a", "b", "c"]).map fun batch =>
          reorderId (batch.map fun u => check_url_status env200 u)).flatten) := by
    rw [batch_url_status_check, hs, Option.map_some']
  exact ⟨hre, hs, _, hr,
    (C10_thm (fun _ => env200) pick0 reorderId 2 (some 2) ["a", "b", "c"]
      ["a", "b", "c"] _ hre hs hr).2⟩
